import Mathlib

/-!
Shallow embedding of src/app_combined_safe.py (us-financial-calendar).

Conventions:
 * Python byte strings are modelled as List Nat (each entry < 256).
 * Python str values are Lean String; Option String models a possibly
   missing dict key (None); Python truthiness of strings is modelled
   explicitly (empty string is falsy).
 * Exceptions are modelled with Except: a .error value is a raised
   exception escaping the modelled region.
 * Machine words are Nat reduced mod 2 ^ 32 where the source relies on
   32-bit wrap-around (SHA-1 internals of hashlib).
-/

namespace Cal

/-! ## UTF-8 encoding (models str.encode("utf-8")) -/

/-- UTF-8 encoding of a single Unicode code point, as bytes. -/
def utf8EncodeCp (c : Nat) : List Nat :=
  if c < 128 then [c]
  else if c < 2048 then [192 + c / 64, 128 + c % 64]
  else if c < 65536 then [224 + c / 4096, 128 + (c / 64) % 64, 128 + c % 64]
  else [240 + c / 262144, 128 + (c / 4096) % 64, 128 + (c / 64) % 64, 128 + c % 64]

/-- UTF-8 encoding of a string, modelling text.encode("utf-8"). -/
def utf8Encode (s : String) : List Nat :=
  s.data.flatMap (fun c => utf8EncodeCp c.toNat)

/-! ## SHA-1 (models hashlib.sha1(..).hexdigest()) -/

/-- Reduction to a 32-bit word. -/
def w32 (n : Nat) : Nat := n % 4294967296

/-- Left rotation of a 32-bit word by k bits (argument assumed < 2 ^ 32). -/
def rotl (k n : Nat) : Nat := (n * 2 ^ k) % 4294967296 + n / 2 ^ (32 - k)

/-- SHA-1 round function for round t. -/
def sha1F (t b c d : Nat) : Nat :=
  if t < 20 then (b &&& c) ||| ((4294967295 - b) &&& d)
  else if t < 40 then b ^^^ c ^^^ d
  else if t < 60 then (b &&& c) ||| (b &&& d) ||| (c &&& d)
  else b ^^^ c ^^^ d

/-- SHA-1 round constant for round t. -/
def sha1K (t : Nat) : Nat :=
  if t < 20 then 1518500249
  else if t < 40 then 1859775393
  else if t < 60 then 2400959708
  else 3395469782

/-- Big-endian 8-byte encoding of the message bit length. -/
def beBytes8 (n : Nat) : List Nat :=
  [n / 2 ^ 56 % 256, n / 2 ^ 48 % 256, n / 2 ^ 40 % 256, n / 2 ^ 32 % 256,
   n / 2 ^ 24 % 256, n / 2 ^ 16 % 256, n / 2 ^ 8 % 256, n % 256]

/-- Merkle-Damgard padding of the message to a multiple of 64 bytes. -/
def sha1Pad (msg : List Nat) : List Nat :=
  let len := msg.length
  msg ++ [128] ++ List.replicate ((119 - len % 64) % 64) 0 ++ beBytes8 (8 * len)

/-- Grouping of bytes into big-endian 32-bit words. -/
def toWords : List Nat → List Nat
  | a :: b :: c :: d :: rest => (a * 16777216 + b * 65536 + c * 256 + d) :: toWords rest
  | _ => []

/-- Fuel-bounded splitting of a byte list into 64-byte chunks; the fuel is
an upper bound on the number of chunks, so chunks64 below is total. -/
def chunks64Aux : Nat → List Nat → List (List Nat)
  | 0, _ => []
  | fuel + 1, l => if l = [] then [] else l.take 64 :: chunks64Aux fuel (l.drop 64)

/-- Splitting of a byte list into 64-byte chunks. -/
def chunks64 (l : List Nat) : List (List Nat) := chunks64Aux l.length l

/-- Message-schedule extension of the 16 chunk words to 80 words. -/
def sha1Schedule (ws : Array Nat) : Array Nat :=
  (List.range 64).foldl (fun a i =>
    let t := i + 16
    a.push (rotl 1 ((a.getD (t - 3) 0) ^^^ (a.getD (t - 8) 0) ^^^
                    (a.getD (t - 14) 0) ^^^ (a.getD (t - 16) 0)))) ws

/-- State update for one SHA-1 round. -/
def sha1Round (ws : Array Nat) (st : Nat × Nat × Nat × Nat × Nat) (t : Nat) :
    Nat × Nat × Nat × Nat × Nat :=
  let (a, b, c, d, e) := st
  (w32 (rotl 5 a + sha1F t b c d + e + sha1K t + ws.getD t 0), a, rotl 30 b, c, d)

/-- Compression of a single 64-byte chunk into the running state. -/
def sha1Chunk (h : Nat × Nat × Nat × Nat × Nat) (chunk : List Nat) :
    Nat × Nat × Nat × Nat × Nat :=
  let ws := sha1Schedule (Array.mk (toWords chunk))
  let (a, b, c, d, e) := (List.range 80).foldl (sha1Round ws) h
  (w32 (h.1 + a), w32 (h.2.1 + b), w32 (h.2.2.1 + c), w32 (h.2.2.2.1 + d), w32 (h.2.2.2.2 + e))

/-- SHA-1 initialisation vector. -/
def sha1Init : Nat × Nat × Nat × Nat × Nat :=
  (1732584193, 4023233417, 2562383102, 271733878, 3285377520)

/-- SHA-1 state after hashing a whole byte message. -/
def sha1Words (msg : List Nat) : Nat × Nat × Nat × Nat × Nat :=
  (chunks64 (sha1Pad msg)).foldl sha1Chunk sha1Init

/-- Lower-case hexadecimal digit. -/
def hexChar (n : Nat) : Char :=
  if n < 10 then Char.ofNat (48 + n) else Char.ofNat (87 + n)

/-- Lower-case 8-digit hexadecimal rendering of a 32-bit word. -/
def hex8 (n : Nat) : String :=
  String.mk ((List.range 8).map (fun i => hexChar (n / 2 ^ (28 - 4 * i) % 16)))

/-- Lower-case SHA-1 hex digest of a byte message. -/
def sha1Hex (msg : List Nat) : String :=
  let (a, b, c, d, e) := sha1Words msg
  hex8 a ++ hex8 b ++ hex8 c ++ hex8 d ++ hex8 e

/-- Model of sha_uid (src lines 46-47): SHA-1 hex digest of the UTF-8
encoding of the text, with the fixed UID namespace suffix. -/
def sha_uid (text : String) : String :=
  sha1Hex (utf8Encode text) ++ "@us-financial-calendar"

/-! ## Civil-date arithmetic and the DateTime model

Python datetime values are modelled as a civil date plus seconds of day
plus an optional fixed UTC offset in minutes; tz = none models a naive
datetime. pytz's America/New_York zone is modelled by the post-2007 US
daylight-saving rule (all dates handled by this service are current). -/

/-- Leap-year test of the Gregorian calendar. -/
def isLeap (y : Nat) : Bool :=
  (y % 4 == 0 && y % 100 != 0) || y % 400 == 0

/-- Number of days of month m in year y. -/
def daysInMonth (y m : Nat) : Nat :=
  if m = 2 then (if isLeap y then 29 else 28)
  else if m = 4 || m = 6 || m = 9 || m = 11 then 30
  else 31

/-- Rata-die style day count (days since 0000-03-01 era origin), valid for
year at least 1; standard civil-from-days algorithm. -/
def civilRata (y m d : Nat) : Nat :=
  let yAdj := if m ≤ 2 then y - 1 else y
  let era := yAdj / 400
  let yoe := yAdj % 400
  let mp := if m > 2 then m - 3 else m + 9
  let doy := (153 * mp + 2) / 5 + d - 1
  let doe := yoe * 365 + yoe / 4 - yoe / 100 + doy
  era * 146097 + doe

/-- Days since the Unix epoch 1970-01-01 of a civil date. -/
def daysFromCivil (y m d : Nat) : Int :=
  (civilRata y m d : Int) - 719468

/-- Civil date of a day count since the Unix epoch (valid down to year 1). -/
def civilFromDays (z : Int) : Nat × Nat × Nat :=
  let zn := (z + 719468).toNat
  let era := zn / 146097
  let doe := zn % 146097
  let yoe := (doe - doe / 1460 + doe / 36524 - doe / 146096) / 365
  let y := yoe + era * 400
  let doy := doe - (365 * yoe + yoe / 4 - yoe / 100)
  let mp := (5 * doy + 2) / 153
  let d := doy - (153 * mp + 2) / 5 + 1
  let m := if mp < 10 then mp + 3 else mp - 9
  (if m ≤ 2 then y + 1 else y, m, d)

/-- Day of week of a civil date, with 0 = Sunday. -/
def dayOfWeek (y m d : Nat) : Nat := (civilRata y m d + 3) % 7

/-- Day of month of the first Sunday of month m in year y. -/
def firstSunday (y m : Nat) : Nat := 1 + (7 - dayOfWeek y m 1) % 7

/-- US daylight-saving test for a local New York wall-clock time: daylight
time runs from 02:00 on the second Sunday of March to 02:00 on the first
Sunday of November (rules in force since 2007, models pytz for current
dates). -/
def nyInDst (y m d secs : Nat) : Bool :=
  if m < 3 || m > 11 then false
  else if 3 < m && m < 11 then true
  else if m = 3 then
    let ss := firstSunday y 3 + 7
    d > ss || (d == ss && secs ≥ 7200)
  else
    let fs := firstSunday y 11
    d < fs || (d == fs && secs < 7200)

/-- UTC offset in minutes of the America/New_York zone at a local wall
time (models pytz.timezone("America/New_York").localize). -/
def nyOffsetMin (y m d secs : Nat) : Int :=
  if nyInDst y m d secs then -240 else -300

/-- Model of a Python datetime: civil date, seconds of day, and an
optional fixed UTC offset in minutes (none models a naive value). -/
structure DateTime where
  y : Nat
  m : Nat
  d : Nat
  secs : Nat
  tz : Option Int
deriving DecidableEq

/-- UTC instant (seconds since the Unix epoch) of a datetime; a naive
value is interpreted in the New York zone first, exactly as to_utc
(src lines 49-52) localizes naive datetimes with TZ before converting. -/
def toUTCInstant (dt : DateTime) : Int :=
  let off := match dt.tz with
    | some o => o
    | none => nyOffsetMin dt.y dt.m dt.d dt.secs
  daysFromCivil dt.y dt.m dt.d * 86400 + (dt.secs : Int) - off * 60

/-- Datetime carrying a given UTC instant, in the UTC zone. -/
def utcOfInstant (t : Int) : DateTime :=
  let dz := Int.ediv t 86400
  let s := (Int.emod t 86400).toNat
  let c := civilFromDays dz
  ⟨c.1, c.2.1, c.2.2, s, some 0⟩

/-- Model of to_utc (src lines 49-52): localize naive values in the New
York zone, then convert to the UTC zone. -/
def to_utc (dt : DateTime) : DateTime := utcOfInstant (toUTCInstant dt)

/-- Attachment of the New York zone to a naive datetime, modelling
TZ.localize. -/
def tzLocalize (dt : DateTime) : DateTime :=
  { dt with tz := some (nyOffsetMin dt.y dt.m dt.d dt.secs) }

/-- Shift of a datetime by whole days, modelling datetime + timedelta
(wall-clock arithmetic: the attached offset is kept unchanged). -/
def addDays (dt : DateTime) (k : Nat) : DateTime :=
  let c := civilFromDays (daysFromCivil dt.y dt.m dt.d + k)
  ⟨c.1, c.2.1, c.2.2, dt.secs, dt.tz⟩

/-- Two-digit zero-padded decimal rendering. -/
def pad2 (n : Nat) : String := (if n < 10 then "0" else "") ++ toString n

/-- Four-digit zero-padded decimal rendering. -/
def pad4 (n : Nat) : String :=
  (if n < 10 then "000" else if n < 100 then "00" else if n < 1000 then "0" else "") ++ toString n

/-- Rendering of a UTC offset in minutes as +HH:MM or -HH:MM. -/
def offsetStr (o : Int) : String :=
  let sign := if o < 0 then "-" else "+"
  let a := o.natAbs
  sign ++ pad2 (a / 60) ++ ":" ++ pad2 (a % 60)

/-- Model of datetime.isoformat(): date, T, time, and the offset when the
value is timezone-aware. -/
def isoformat (dt : DateTime) : String :=
  pad4 dt.y ++ "-" ++ pad2 dt.m ++ "-" ++ pad2 dt.d ++ "T" ++
  pad2 (dt.secs / 3600) ++ ":" ++ pad2 (dt.secs % 3600 / 60) ++ ":" ++ pad2 (dt.secs % 60) ++
  (match dt.tz with
   | some o => offsetStr o
   | none => "")

/-! ## Parsing (models dateutil.parser.parse on the formats the upstream
providers emit: ISO dates, ISO datetimes with optional fractional seconds
and optional UTC offset, with T or space as separator). An unparsable
string yields none, modelling the ParserError dateutil raises. -/

/-- Decimal value of a digit character. -/
def digitVal (c : Char) : Option Nat :=
  if c.isDigit then some (c.toNat - 48) else none

/-- Two leading decimal digits and the rest of the characters. -/
def digits2 : List Char → Option (Nat × List Char)
  | a :: b :: r =>
    match digitVal a, digitVal b with
    | some x, some y => some (10 * x + y, r)
    | _, _ => none
  | _ => none

/-- Four leading decimal digits and the rest of the characters. -/
def digits4 (cs : List Char) : Option (Nat × List Char) :=
  match digits2 cs with
  | some (hi, r1) =>
    match digits2 r1 with
    | some (lo, r2) => some (100 * hi + lo, r2)
    | none => none
  | none => none

/-- Parse of a YYYY-MM-DD date at the start of the characters. -/
def parseDatePart (cs : List Char) : Option (Nat × Nat × Nat × List Char) :=
  match digits4 cs with
  | some (y, r1) =>
    match r1 with
    | '-' :: r2 =>
      match digits2 r2 with
      | some (m, r3) =>
        match r3 with
        | '-' :: r4 =>
          match digits2 r4 with
          | some (d, r5) => some (y, m, d, r5)
          | none => none
        | _ => none
      | none => none
    | _ => none
  | none => none

/-- Parse of HH:MM or HH:MM:SS with optional fractional digits, yielding
seconds of day and the remaining characters. -/
def parseTimePart (cs : List Char) : Option (Nat × List Char) :=
  match digits2 cs with
  | some (h, r1) =>
    match r1 with
    | ':' :: r2 =>
      match digits2 r2 with
      | some (mi, r3) =>
        if h ≥ 24 || mi ≥ 60 then none
        else
          match r3 with
          | ':' :: r4 =>
            match digits2 r4 with
            | some (s, r5) =>
              if s ≥ 60 then none
              else
                match r5 with
                | '.' :: r6 => some (h * 3600 + mi * 60 + s, r6.dropWhile Char.isDigit)
                | _ => some (h * 3600 + mi * 60 + s, r5)
            | none => none
          | _ => some (h * 3600 + mi * 60, r3)
      | none => none
    | _ => none
  | none => none

/-- Parse of a trailing UTC offset: empty (naive), Z, or a signed HH:MM
offset in minutes. -/
def parseOffsetPart (cs : List Char) : Option (Option Int)  :=
  match cs with
  | [] => some none
  | ['Z'] => some (some 0)
  | '+' :: r =>
    match parseTimePart r with
    | some (s, []) => some (some ((s : Int) / 60))
    | _ => none
  | '-' :: r =>
    match parseTimePart r with
    | some (s, []) => some (some (-((s : Int) / 60)))
    | _ => none
  | _ => none

/-- Model of dateutil.parser.parse restricted to the ISO-style inputs the
providers emit; none models a raised ParserError. -/
def parseDT (str : String) : Option DateTime :=
  match parseDatePart str.data with
  | none => none
  | some (y, m, d, rest) =>
    if y < 1 || m < 1 || m > 12 || d < 1 || d > daysInMonth y m then none
    else
      match rest with
      | [] => some ⟨y, m, d, 0, none⟩
      | sep :: r2 =>
        if sep = 'T' || sep = ' ' then
          match parseTimePart r2 with
          | none => none
          | some (secs, r3) =>
            match parseOffsetPart r3 with
            | none => none
            | some tz => some ⟨y, m, d, secs, tz⟩
        else none

/-! ## Python string truthiness and dict-access helpers -/

/-- Truthiness of a possibly missing string value: present and non-empty. -/
def truthyS : Option String → Bool
  | some s => !(s == "")
  | none => false

/-- Model of the Python expression (o or dflt) on a string read from a
dict: the default is taken when the key is missing or the value empty. -/
def pyOrStr (o : Option String) (dflt : String) : String :=
  match o with
  | some s => if s = "" then dflt else s
  | none => dflt

/-- Model of a chain (a or b or ... or ""): the first truthy string, or
the empty string. -/
def pyChainStr : List (Option String) → String
  | [] => ""
  | o :: rest =>
    match o with
    | some s => if s = "" then pyChainStr rest else s
    | none => pyChainStr rest

/-- Model of (a or b) on integer dict reads: 0 is falsy in Python, so a
present 0 also falls through to b. -/
def pyOrInt (a b : Option Int) : Option Int :=
  match a with
  | some v => if v = 0 then b else some v
  | none => b

/-- Lower-casing of a string (models str.lower on the ASCII data seen
here), written over the character list so it evaluates by reduction. -/
def toLowerStr (s : String) : String := String.mk (s.data.map Char.toLower)

/-- Upper-casing of a string (models str.upper on the ASCII data seen
here). -/
def toUpperStr (s : String) : String := String.mk (s.data.map Char.toUpper)

/-- Whitespace test for the strip model. -/
def isWS (c : Char) : Bool := c = ' ' || c = '\t' || c = '\n' || c = '\x0d'

/-- Stripping of leading and trailing whitespace (models str.strip). -/
def trimStr (s : String) : String :=
  String.mk (((s.data.dropWhile isWS).reverse.dropWhile isWS).reverse)

/-- Substring test on character lists (model of the Python in operator on
strings). -/
def infixChars : List Char → List Char → Bool
  | n, [] => n.isEmpty
  | n, h@(_ :: t) => n.isPrefixOf h || infixChars n t

/-- Test whether needle occurs as a contiguous substring of hay. -/
def containsSub (needle hay : String) : Bool := infixChars needle.data hay.data

/-! ## Raw records and the canonical Event model -/

/-- Raw economic-release record as assembled by the FRED adapter (keys
event, date, time, country; every access tolerates absence). -/
structure EconRaw where
  event : Option String
  date : Option String
  time : Option String
  country : Option String
deriving DecidableEq

/-- Raw earnings record from the FMP earnings-calendar endpoint; the
possibly missing keys the source reads. -/
structure EarnRaw where
  symbol : Option String
  company : Option String
  companyName : Option String
  date : Option String
  time : Option String
  hour : Option String
  whenKey : Option String
deriving DecidableEq

/-- Canonical event dict appended by collect_combined_events: summary,
local datetime, identity seed (uid_text), and description. The fallback
placeholder event carries no uid_text and no description. -/
structure Event where
  summary : String
  dt : DateTime
  uid_text : Option String
  description : Option String
deriving DecidableEq

/-- Static Dow 30 seed universe (src lines 39-43). -/
def DOW30 : List String :=
  ["AAPL", "MSFT", "JPM", "V", "JNJ", "WMT", "PG", "DIS", "HD", "MA", "XOM", "PFE",
   "KO", "PEP", "CSCO", "CVX", "INTC", "MCD", "UNH", "BAC", "VZ", "TRV", "MMM", "NKE",
   "MRK", "AXP", "DOW", "GS", "RTX", "IBM"]

/-! ## Event normalization (src lines 191-288) -/

/-- Keyword list that bumps an economic release to the 10:00 default
local time (src line 209). -/
def ten_am_keywords : List String :=
  ["Job Openings", "JOLTS", "Consumer Confidence", "ISM", "Factory Orders",
   "Construction Spending"]

/-- Normalization of a single economic record (src lines 210-231).
Returns .ok none when the record is skipped (falsy date), .error when
parsing the date raises (the source loop has no try/except here, so the
exception escapes the whole batch), and .ok (some ev) otherwise. -/
def econStep (used_te : Bool) (item : EconRaw) : Except String (Option Event) :=
  let name := pyOrStr item.event "Economic Release"
  if !truthyS item.date then .ok none
  else
    let ds := item.date.getD ""
    let default_time : Nat :=
      if ten_am_keywords.any (fun kw => containsSub (toLowerStr kw) (toLowerStr name)) then 10 * 3600
      else 8 * 3600 + 30 * 60
    let desc := if !used_te then "Economic release (FRED releases/dates)"
                else "Economic release (TE fallback)"
    let mk : DateTime → Event := fun dt =>
      { summary := name ++ " (Economic)"
        dt := dt
        uid_text := some ("econ::" ++ name ++ "::" ++ ds)
        description := some desc }
    if containsSub "T" ds && decide (ds.length > 10) then
      match parseDT ds with
      | none => .error "dateutil ParserError"
      | some dt => .ok (some (mk dt))
    else
      match parseDT ds with
      | none => .error "dateutil ParserError"
      | some dt0 => .ok (some (mk (tzLocalize ⟨dt0.y, dt0.m, dt0.d, default_time, none⟩)))

/-- Normalization of a whole economic batch; a raised exception from any
record aborts the remainder, exactly as in the source loop. -/
def econBatch (used_te : Bool) : List EconRaw → Except String (List Event)
  | [] => .ok []
  | item :: rest =>
    match econStep used_te item with
    | .error e => .error e
    | .ok none => econBatch used_te rest
    | .ok (some ev) =>
      match econBatch used_te rest with
      | .error e => .error e
      | .ok l => .ok (ev :: l)

/-- Pre-market keyword list (src line 267). -/
def preKeywords : List String := ["before", "pre", "bmo", "am"]

/-- Post-market keyword list (src line 270). -/
def postKeywords : List String := ["after", "post", "pm", "after market", "amc"]

/-- Timing-label classification of the lower-cased timing string (src
lines 264-272): the summary suffix and the assigned default local time in
seconds of day (none preserves the parsed timestamp). The pre-market
check runs first and the first match wins. -/
def classifyTiming (whenRaw : String) : String × Option Nat :=
  let w := toLowerStr whenRaw
  if preKeywords.any (fun k => containsSub k w) then
    (" (Pre Market)", some (8 * 3600))
  else if postKeywords.any (fun k => containsSub k w) then
    (" (After Market)", some (16 * 3600 + 10 * 60))
  else ("", none)

/-- Normalization of a single earnings record (src lines 250-285); none
models a continue (record dropped or filtered out). include_all and
universe come from the effective-universe policy, autoNote marks the
auto-expanded provenance note. -/
def earnStep (include_all : Bool) (uni : List String) (autoNote : Bool)
    (row : EarnRaw) : Option Event :=
  let symbol := toUpperStr (pyOrStr row.symbol "")
  if !include_all && !(decide (symbol ∈ uni)) then none
  else
    let company := pyOrStr row.company (pyOrStr row.companyName symbol)
    let date_raw := row.date
    let whenStr := trimStr (pyChainStr [row.time, row.hour, row.whenKey])
    if !truthyS date_raw then none
    else
      let ds := date_raw.getD ""
      match parseDT ds with
      | none => none
      | some dt0 =>
        let lab := classifyTiming whenStr
        let dt1 := match lab.2 with
          | some s => tzLocalize ⟨dt0.y, dt0.m, dt0.d, s, none⟩
          | none => dt0
        let desc0 := trimStr ("Earnings: " ++ symbol ++ " " ++ whenStr)
        let desc := if autoNote then
            desc0 ++ "\nNote: Auto-expanded â€” S&P500 list unavailable at build time"
          else desc0
        some
          { summary := company ++ " (" ++ symbol ++ ") - Earnings" ++ lab.1
            dt := dt1
            uid_text := some ("earn::" ++ symbol ++ "::" ++ ds)
            description := some desc }

/-- Normalization of a whole earnings batch; the source loop catches the
per-record parse exception and continues, so the batch map is total. -/
def earnBatch (include_all : Bool) (uni : List String) (autoNote : Bool)
    (rows : List EarnRaw) : List Event :=
  rows.filterMap (earnStep include_all uni autoNote)

/-! ## Universe policy and aggregation (src lines 234-288) -/

/-- Effective earnings universe (src line 235): live S&P 500 set unioned
with the Dow 30 seed, the seed alone when the live fetch came back empty. -/
def universeOf (sp500 : List String) : List String :=
  if sp500.isEmpty then DOW30 else sp500 ++ DOW30

/-- Auto-expansion flag (src lines 239-242): set when include-all is off
by configuration, auto-expand is enabled, and the live list is empty. -/
def auto_expanded_now (envAll autoExp : Bool) (sp500 : List String) : Bool :=
  !envAll && autoExp && sp500.isEmpty

/-- Effective include-all directive (src lines 238-248): configuration
flag, then auto-expansion, then the per-request override. -/
def effectiveIncludeAll (envAll autoExp reqAll : Bool) (sp500 : List String) : Bool :=
  (envAll || auto_expanded_now envAll autoExp sp500) || reqAll

/-- Filter test applied to each earnings record (src line 252): the
record passes when include-all is on or its uppercased symbol is in the
universe. -/
def passesFilter (include_all : Bool) (uni : List String) (symbol : String) : Bool :=
  include_all || decide (symbol ∈ uni)

/-- Sort key (src line 287): the UTC instant of the event datetime. -/
def evKey (e : Event) : Int := toUTCInstant e.dt

/-- Stable insertion of an event into a list sorted by evKey: the new
element goes before the first element of equal or larger key, which keeps
elements of equal key in input order. -/
def insEv (x : Event) : List Event → List Event
  | [] => [x]
  | b :: t => if evKey x ≤ evKey b then x :: b :: t else b :: insEv x t

/-- Stable sort of events by UTC instant, modelling list.sort with key
to_utc (src line 287); Python list.sort is stable, and a stable sort is
uniquely determined by sortedness plus stability. -/
def sortEvents : List Event → List Event
  | [] => []
  | x :: xs => insEv x (sortEvents xs)

/-- Model of collect_combined_events (src lines 191-288) downstream of
the network fetches: the raw economic records, the te-fallback flag, the
live constituent list, the raw earnings records and the three include-all
signals are inputs; the result is the sorted combined event list, or the
exception escaping the economic normalization loop. -/
def collect_combined_events (econRaws : List EconRaw) (used_te : Bool)
    (sp500 : List String) (earnRaws : List EarnRaw)
    (envAll autoExp reqAll : Bool) : Except String (List Event) :=
  match econBatch used_te econRaws with
  | .error e => .error e
  | .ok econEvs =>
    let uni := universeOf sp500
    let autoNow := auto_expanded_now envAll autoExp sp500
    let include_all := effectiveIncludeAll envAll autoExp reqAll sp500
    let autoNote := autoNow && !envAll
    let earnEvs := earnBatch include_all uni autoNote earnRaws
    .ok (sortEvents (econEvs ++ earnEvs))

/-! ## Source adapters and the bounded-retry helper (src lines 54-163)

A network attempt is modelled by its observable outcome: a decoded 200
response payload, a non-200 status, or a transport exception. The helper
_get tries exactly three attempts; it re-raises the exception of the
third attempt and returns None after a final non-200 status. -/

/-- Outcome of one HTTP attempt: decoded payload of a 200 response,
non-200 status, or a raised transport exception. -/
inductive Att (ρ : Type) where
  | success (payload : ρ)
  | failStatus
  | exn
deriving DecidableEq

/-- Model of _get (src lines 54-64) over the outcomes of its up to three
attempts: the first 200 payload wins; an exception on attempt 0 or 1 is
swallowed and retried; an exception on the final attempt is re-raised;
exhausting the loop without a 200 returns none. -/
def getWithRetry {ρ : Type} (a0 a1 a2 : Att ρ) : Except Unit (Option ρ) :=
  match a0 with
  | .success p => .ok (some p)
  | _ =>
    match a1 with
    | .success p => .ok (some p)
    | _ =>
      match a2 with
      | .success p => .ok (some p)
      | .failStatus => .ok none
      | .exn => .error ()

/-- Backoff slept after attempt i, in seconds (src line 63). -/
def backoffSeconds (i : Nat) : ℚ := 7 * (i + 1) / 10

/-- Entry of the FRED releases/dates response. -/
structure FredDateEntry where
  date : Option String
  release_id : Option Int
  id : Option Int
  release_name : Option String
deriving DecidableEq

/-- Entry of the FRED releases response. -/
structure FredRelEntry where
  id : Option Int
  release_id : Option Int
  name : Option String
  release_name : Option String
deriving DecidableEq

/-- Insert-or-replace on an association list, modelling Python dict
assignment (a later assignment to the same key wins). -/
def dictInsert (m : List (Int × String)) (k : Int) (v : String) : List (Int × String) :=
  if m.any (fun p => p.1 == k) then m.map (fun p => if p.1 == k then (k, v) else p)
  else m ++ [(k, v)]

/-- Lookup on the association list, modelling dict.get. -/
def dictGet (m : List (Int × String)) (k : Int) : Option String :=
  (m.find? (fun p => p.1 == k)).map (fun p => p.2)

/-- Release-id-to-name map built from the releases list (src lines 81-87). -/
def releaseMapOf (rels : List FredRelEntry) : List (Int × String) :=
  rels.foldl (fun out rel =>
    let rid := pyOrInt rel.id rel.release_id
    let name := pyChainStr [rel.name, rel.release_name]
    match rid with
    | some r => if name ≠ "" then dictInsert out r name else out
    | none => out) []

/-- Model of fetch_fred_release_map (src lines 74-87): an empty map on a
missing response; the transport exception of _get is not caught and
escapes. -/
def fetch_fred_release_map (r0 r1 r2 : Att (List FredRelEntry)) :
    Except Unit (List (Int × String)) :=
  match getWithRetry r0 r1 r2 with
  | .error e => .error e
  | .ok none => .ok []
  | .ok (some rels) => .ok (releaseMapOf rels)

/-- Normalization of one FRED release-date entry into a raw economic
record (src lines 108-115). -/
def econRawOfDate (idToName : List (Int × String)) (d : FredDateEntry) : Option EconRaw :=
  let rid := pyOrInt d.release_id d.id
  if !truthyS d.date then none
  else
    match rid with
    | none => none
    | some r =>
      let name := pyOrStr d.release_name (pyOrStr (dictGet idToName r) "Economic Release")
      some { event := some name, date := d.date, time := none, country := some "US" }

/-- Model of fetch_economic_calendar_fred (src lines 89-116). The _get
calls are not wrapped in try/except here, so a transport exception
escaping _get escapes this adapter too. -/
def fetch_economic_calendar_fred (d0 d1 d2 : Att (List FredDateEntry))
    (r0 r1 r2 : Att (List FredRelEntry)) : Except Unit (List EconRaw) :=
  match getWithRetry d0 d1 d2 with
  | .error e => .error e
  | .ok none => .ok []
  | .ok (some dates) =>
    if dates.isEmpty then .ok []
    else
      match fetch_fred_release_map r0 r1 r2 with
      | .error e => .error e
      | .ok idToName => .ok (dates.filterMap (econRawOfDate idToName))

/-- Decoded JSON body of an earnings-calendar response: a list of rows,
or some other JSON value (skipped by the isinstance check). -/
inductive EarnJson where
  | rows (l : List EarnRaw)
  | other
deriving DecidableEq

/-- Model of fetch_earnings_calendar (src lines 149-163): one chunk per
date sub-window; the whole per-chunk body is wrapped in try/except with
continue, so an exception from _get only skips that chunk. -/
def fetch_earnings_calendar (chunks : List (Att EarnJson × Att EarnJson × Att EarnJson)) :
    List EarnRaw :=
  chunks.foldl (fun acc c =>
    match getWithRetry c.1 c.2.1 c.2.2 with
    | .error _ => acc
    | .ok none => acc
    | .ok (some (EarnJson.rows l)) => acc ++ l
    | .ok (some EarnJson.other) => acc) []

/-- Model of fetch_sp500_symbols (src lines 140-147): the set of
uppercased symbols of the rows with a truthy symbol; any exception is
caught and yields the empty set. Sets are modelled as lists, membership
being all the callers use. -/
def fetch_sp500_symbols (a0 a1 a2 : Att (List (Option String))) : List String :=
  match getWithRetry a0 a1 a2 with
  | .error _ => []
  | .ok none => []
  | .ok (some rs) => (rs.filter truthyS).map (fun o => toUpperStr (o.getD ""))

/-! ## Calendar serialization (src lines 166-188) -/

/-- UID of a serialized event (src line 182): sha_uid of the identity
seed when present and non-empty (Python or-truthiness), else of the
summary joined with the ISO form of the UTC start instant. -/
def eventUID (ev : Event) : String :=
  sha_uid (pyOrStr ev.uid_text (ev.summary ++ "-" ++ isoformat (to_utc ev.dt)))

/-- Compact ICS rendering of a UTC datetime. -/
def icsDT (dt : DateTime) : String :=
  pad4 dt.y ++ pad2 dt.m ++ pad2 dt.d ++ "T" ++
  pad2 (dt.secs / 3600) ++ pad2 (dt.secs % 3600 / 60) ++ pad2 (dt.secs % 60) ++ "Z"

/-- Serialization of one VEVENT (src lines 175-187): UTC start, fixed
15-minute end, UID from the identity seed, build timestamp, optional
description. -/
def renderEvent (nowT : Int) (ev : Event) : String :=
  let dtstartU := to_utc ev.dt
  let dtendU := utcOfInstant (toUTCInstant ev.dt + 15 * 60)
  "BEGIN:VEVENT\r\nSUMMARY:" ++ ev.summary ++
  "\r\nDTSTART:" ++ icsDT dtstartU ++
  "\r\nDTEND:" ++ icsDT dtendU ++
  "\r\nUID:" ++ eventUID ev ++
  "\r\nDTSTAMP:" ++ icsDT (utcOfInstant nowT) ++
  (match ev.description with
   | some d => if d = "" then "" else "\r\nDESCRIPTION:" ++ d
   | none => "") ++
  "\r\nTRANSP:OPAQUE\r\nEND:VEVENT\r\n"

/-- Fixed calendar-level header (src lines 167-173). -/
def calHeader : String :=
  "BEGIN:VCALENDAR\r\nPRODID:-//US Combined Economic & Earnings Calendar//\r\nVERSION:2.0\r\nCALSCALE:GREGORIAN\r\nMETHOD:PUBLISH\r\nX-WR-CALNAME:US Economic & Major Earnings Calendar\r\nX-WR-TIMEZONE:America/New_York\r\n"

/-- Model of build_calendar (src lines 166-188): the serialized document
bytes; nowT is the render-time UTC clock used for DTSTAMP. -/
def build_calendar (nowT : Int) (events : List Event) : List Nat :=
  utf8Encode (calHeader ++ String.join (events.map (renderEvent nowT)) ++ "END:VCALENDAR\r\n")

/-! ## Snapshot cache and routes (src lines 36, 291-322) -/

/-- Cache state (src line 36): optional document bytes and the build
timestamp. -/
structure CacheState where
  ics : Option (List Nat)
  ts : Int
deriving DecidableEq

/-- Initial cache (src line 36). -/
def initialCache : CacheState := ⟨none, 0⟩

/-- Python truthiness of the cached bytes slot. -/
def icsTruthy : Option (List Nat) → Bool
  | none => false
  | some b => !b.isEmpty

/-- Cache-hit guard of the feed route (src line 295). -/
def cacheHit (force : Bool) (now ttl : Int) (c : CacheState) : Bool :=
  icsTruthy c.ics && !force && decide (now - c.ts < ttl)

/-- Placeholder event substituted when collection yields nothing (src
lines 299-301). -/
def fallbackEvent (tznow : DateTime) : Event :=
  { summary := "Fallback GDP (Economic)", dt := addDays tznow 1,
    uid_text := none, description := none }

/-- Model of the feed route (src lines 291-311). collectR is the outcome
of collect_combined_events and build the serializer, both passed as
values so that a raised exception is explicit; the result is the response
body (or the escaping exception, which the unguarded route turns into an
HTTP 500), the cache after the call, and whether a rebuild ran. -/
def feed (collectR : Except String (List Event))
    (build : List Event → Except String (List Nat))
    (force : Bool) (now ttl : Int) (tznow : DateTime) (c : CacheState) :
    Except String (List Nat) × CacheState × Bool :=
  if cacheHit force now ttl c then (.ok (c.ics.getD []), c, false)
  else
    match collectR with
    | .error e => (.error e, c, true)
    | .ok events0 =>
      let events := if events0.isEmpty then [fallbackEvent tznow] else events0
      match build events with
      | .error e => (.error e, c, true)
      | .ok ics => (.ok ics, ⟨some ics, now⟩, true)

/-- Model of the warm route (src lines 313-322): the whole rebuild is
wrapped in try/except, an exception yields an error response and leaves
the cache untouched; there is no empty-collection placeholder here. -/
def warm (collectR : Except String (List Event))
    (build : List Event → Except String (List Nat))
    (now : Int) (c : CacheState) :
    Except String (String × Nat) × CacheState :=
  match collectR with
  | .error e => (.error e, c)
  | .ok events =>
    match build events with
    | .error e => (.error e, c)
    | .ok ics => (.ok ("ok", events.length), ⟨some ics, now⟩)

/-! ## Properties of the stable sort -/

theorem mem_insEv (x y : Event) (l : List Event) :
    y ∈ insEv x l ↔ y = x ∨ y ∈ l := by
  induction l with
  | nil => simp [insEv]
  | cons b t ih =>
    simp only [insEv]
    split
    · simp [List.mem_cons]
    · simp only [List.mem_cons, ih]
      tauto

theorem pairwise_insEv (x : Event) (l : List Event)
    (h : l.Pairwise (fun a b => evKey a ≤ evKey b)) :
    (insEv x l).Pairwise (fun a b => evKey a ≤ evKey b) := by
  induction l with
  | nil => simp [insEv]
  | cons b t ih =>
    rw [List.pairwise_cons] at h
    obtain ⟨hb, ht⟩ := h
    by_cases hx : evKey x ≤ evKey b
    · rw [insEv, if_pos hx, List.pairwise_cons]
      refine ⟨?_, by rw [List.pairwise_cons]; exact ⟨hb, ht⟩⟩
      intro y hy
      rcases List.mem_cons.mp hy with rfl | hyt
      · exact hx
      · exact le_trans hx (hb y hyt)
    · rw [insEv, if_neg hx, List.pairwise_cons]
      refine ⟨?_, ih ht⟩
      intro y hy
      rcases (mem_insEv x y t).mp hy with rfl | hyt
      · exact le_of_not_le hx
      · exact hb y hyt

theorem filter_insEv (k : Int) (x : Event) (l : List Event) :
    (insEv x l).filter (fun e => evKey e == k) =
      if evKey x == k then x :: l.filter (fun e => evKey e == k)
      else l.filter (fun e => evKey e == k) := by
  induction l with
  | nil =>
    by_cases h : evKey x == k
    · simp [insEv, List.filter_cons, h]
    · simp [insEv, List.filter_cons, h]
  | cons b t ih =>
    by_cases hx : evKey x ≤ evKey b
    · rw [insEv, if_pos hx]
      by_cases h : evKey x == k
      · simp [List.filter_cons, h]
      · simp [List.filter_cons, h]
    · have hlt : evKey b < evKey x := lt_of_not_le hx
      rw [insEv, if_neg hx]
      by_cases hxk : evKey x == k
      · have hxe : evKey x = k := beq_iff_eq.mp hxk
        have hbk : (evKey b == k) = false := beq_eq_false_iff_ne.mpr (by omega)
        simp [List.filter_cons, ih, hxk, hbk]
      · by_cases hbk : evKey b == k
        · simp [List.filter_cons, ih, hxk, hbk]
        · simp [List.filter_cons, ih, hxk, hbk]

theorem sortEvents_pairwise (l : List Event) :
    (sortEvents l).Pairwise (fun a b => evKey a ≤ evKey b) := by
  induction l with
  | nil => simp [sortEvents]
  | cons x xs ih => exact pairwise_insEv x _ ih

theorem sortEvents_stable (k : Int) (l : List Event) :
    (sortEvents l).filter (fun e => evKey e == k) = l.filter (fun e => evKey e == k) := by
  induction l with
  | nil => rfl
  | cons x xs ih =>
    rw [sortEvents, filter_insEv, ih, List.filter_cons]

theorem utf8Encode_append (a b : String) :
    utf8Encode (a ++ b) = utf8Encode a ++ utf8Encode b := by
  simp [utf8Encode, String.data_append]

/-! ## Claim theorems -/

/-- C2 (code bug): the timing classifier (src lines 264-272) sends the
raw timing string AMC to the pre-market branch with assigned local time
08:00, because the pre-market keyword am is a substring of amc and the
pre-market check runs first; the source's own post-market keyword list
names amc, so the intended classification of AMC is After Market / 16:10.
BMO and the empty string behave as the claim states. -/
theorem amc_timing_misclassified :
    classifyTiming "AMC" = (" (Pre Market)", some (8 * 3600)) ∧
    containsSub "am" (toLowerStr "AMC") = true ∧
    "amc" ∈ postKeywords ∧
    classifyTiming "BMO" = (" (Pre Market)", some (8 * 3600)) ∧
    classifyTiming "" = ("", none) := by
  refine ⟨by decide, by decide, by decide, by decide, by decide⟩

/-- C4 counterexample: on a cache miss with a raised rebuild exception,
the feed route returns the escaping exception (which the hosting
framework turns into an HTTP 500), not a minimal valid empty calendar
document. -/
theorem feed_rebuild_failure_counterexample :
    (feed (.error "boom") (fun evs => .ok (build_calendar 0 evs)) false 0 900
        ⟨2026, 1, 1, 0, some (-300)⟩ initialCache).1 = .error "boom" := by
  rfl

/-- C4 amended: the feed route has no exception handler: on a cache miss
a raised collection exception escapes unchanged (an HTTP 500, not an
empty-calendar fallback). The only fallback in the route is for a
successful but empty collection, where a single placeholder event is
substituted before serialization. -/
theorem feed_rebuild_failure_amended :
    ∀ (e : String) (build : List Event → Except String (List Nat))
      (force : Bool) (now ttl : Int) (tznow : DateTime) (c : CacheState),
      cacheHit force now ttl c = false →
      (feed (.error e) build force now ttl tznow c = (.error e, c, true) ∧
       ∀ (ics : List Nat), build [fallbackEvent tznow] = .ok ics →
         feed (.ok []) build force now ttl tznow c = (.ok ics, ⟨some ics, now⟩, true)) := by
  intro e build force now ttl tznow c hmiss
  constructor
  · simp [feed, hmiss]
  · intro ics hb
    simp [feed, hmiss, hb]

/-- C4 amended, witness at a concrete input. -/
theorem feed_rebuild_failure_amended_witness :
    cacheHit false 0 900 initialCache = false ∧
    (feed (.error "boom2") (fun _ => .ok [55]) false 0 900 ⟨2026, 1, 1, 0, some 0⟩
        initialCache = (.error "boom2", initialCache, true) ∧
     ∀ (ics : List Nat), (fun _ : List Event => Except.ok (ε := String) [55]) [fallbackEvent ⟨2026, 1, 1, 0, some 0⟩] = .ok ics →
       feed (.ok []) (fun _ => .ok [55]) false 0 900 ⟨2026, 1, 1, 0, some 0⟩
          initialCache = (.ok ics, ⟨some ics, 0⟩, true)) :=
  ⟨rfl, feed_rebuild_failure_amended "boom2" (fun _ => .ok [55]) false 0 900
      ⟨2026, 1, 1, 0, some 0⟩ initialCache rfl⟩

/-- C5 counterexample: when all three attempts of the FRED releases/dates
call raise a transport exception, the exception escapes the economic
adapter to its caller instead of being converted to an empty result. -/
theorem econ_adapter_exception_counterexample :
    fetch_economic_calendar_fred .exn .exn .exn .exn .exn .exn = .error () := by
  rfl

/-- C5 amended: each HTTP call makes at most three attempts with strictly
increasing backoff, and a non-success status on the final attempt yields
an empty result in every adapter; a transport exception surviving the
retries is caught and converted to no data in the earnings and
constituent adapters only — in the economic adapter (both the
releases/dates call and the releases-map call are unwrapped) it
propagates to the aggregator. -/
theorem adapter_retry_amended :
    (∀ (r0 r1 r2 : Att (List FredRelEntry)),
       fetch_economic_calendar_fred .failStatus .failStatus .failStatus r0 r1 r2 = .ok []) ∧
    (∀ (r0 r1 r2 : Att (List FredRelEntry)),
       fetch_economic_calendar_fred .exn .exn .exn r0 r1 r2 = .error ()) ∧
    (∀ (rest : List (Att EarnJson × Att EarnJson × Att EarnJson)),
       fetch_earnings_calendar ((.exn, .exn, .exn) :: rest) = fetch_earnings_calendar rest) ∧
    (∀ (rest : List (Att EarnJson × Att EarnJson × Att EarnJson)),
       fetch_earnings_calendar ((.failStatus, .failStatus, .failStatus) :: rest) =
         fetch_earnings_calendar rest) ∧
    fetch_sp500_symbols .exn .exn .exn = [] ∧
    fetch_sp500_symbols .failStatus .failStatus .failStatus = [] ∧
    backoffSeconds 0 < backoffSeconds 1 ∧ backoffSeconds 1 < backoffSeconds 2 := by
  refine ⟨fun r0 r1 r2 => rfl, fun r0 r1 r2 => rfl, fun rest => rfl, fun rest => rfl,
    rfl, rfl, ?_, ?_⟩ <;> norm_num [backoffSeconds]

/-- C9: cache idempotence within the TTL. Serialized documents are never
empty byte strings, so an existing snapshot always passes the truthiness
guard of the feed route; under a live TTL two consecutive non-forced
calls both serve the identical cached bytes, leave the cache unchanged
and trigger no rebuild, whatever the pipeline would have produced. -/
theorem cache_idempotent_within_ttl :
    (∀ (nowT : Int) (events : List Event), build_calendar nowT events ≠ []) ∧
    ∀ (c1R c2R : Except String (List Event))
      (b1 b2 : List Event → Except String (List Nat))
      (now1 now2 ttl : Int) (t1 t2 : DateTime) (c : CacheState) (bts : List Nat),
      c.ics = some bts → bts ≠ [] →
      now1 - c.ts < ttl → now2 - c.ts < ttl →
      feed c1R b1 false now1 ttl t1 c = (.ok bts, c, false) ∧
      feed c2R b2 false now2 ttl t2 c = (.ok bts, c, false) := by
  constructor
  · intro nowT events h
    unfold build_calendar at h
    rw [utf8Encode_append, utf8Encode_append] at h
    rcases List.append_eq_nil.mp h with ⟨h2, _⟩
    rcases List.append_eq_nil.mp h2 with ⟨h3, _⟩
    exact absurd h3 (by decide)
  · intro c1R c2R b1 b2 now1 now2 ttl t1 t2 c bts hics hne h1 h2
    have htr : icsTruthy c.ics = true := by
      rw [hics]
      cases bts with
      | nil => exact absurd rfl hne
      | cons a t => rfl
    have hh1 : cacheHit false now1 ttl c = true := by
      simp [cacheHit, htr, h1]
    have hh2 : cacheHit false now2 ttl c = true := by
      simp [cacheHit, htr, h2]
    constructor
    · simp [feed, hh1, hics]
    · simp [feed, hh2, hics]

/-- C9, witness at a concrete input. -/
theorem cache_idempotent_within_ttl_witness :
    (⟨some [66], 0⟩ : CacheState).ics = some [66] ∧ ([66] : List Nat) ≠ [] ∧
    (1 : Int) - 0 < 900 ∧ (2 : Int) - 0 < 900 ∧
    (feed (.error "down") (fun _ => .error "down") false 1 900 ⟨2026, 1, 1, 0, some 0⟩
        ⟨some [66], 0⟩ = (.ok [66], ⟨some [66], 0⟩, false) ∧
     feed (.ok []) (fun _ => .ok [1, 2]) false 2 900 ⟨2026, 1, 1, 0, some 0⟩
        ⟨some [66], 0⟩ = (.ok [66], ⟨some [66], 0⟩, false)) :=
  ⟨rfl, by decide, by decide, by decide,
   cache_idempotent_within_ttl.2 (.error "down") (.ok []) (fun _ => .error "down")
     (fun _ => .ok [1, 2]) 1 2 900 ⟨2026, 1, 1, 0, some 0⟩ ⟨2026, 1, 1, 0, some 0⟩
     ⟨some [66], 0⟩ [66] rfl (by decide) (by decide) (by decide)⟩

/-- C10: cache atomicity on rebuild error. For the feed and warm routes
alike, if the collection raises, or collection succeeds and the
serialization raises, the cache pair (bytes, timestamp) after the call is
exactly the cache before it; the pair is written only after both steps
succeed. -/
theorem cache_unchanged_on_rebuild_error :
    ∀ (e : String) (build : List Event → Except String (List Nat))
      (force : Bool) (now ttl : Int) (tznow : DateTime) (c : CacheState)
      (events : List Event),
      (feed (.error e) build force now ttl tznow c).2.1 = c ∧
      (feed (.ok events) (fun _ => .error e) force now ttl tznow c).2.1 = c ∧
      (warm (.error e) build now c).2 = c ∧
      (warm (.ok events) (fun _ => .error e) now c).2 = c := by
  intro e build force now ttl tznow c events
  refine ⟨?_, ?_, rfl, rfl⟩ <;>
  · unfold feed
    split <;> rfl

set_option maxRecDepth 10000 in
/-- C1 counterexample: two events whose uid_text values are equal as
strings (both empty) serialize to different UIDs, because the Python or
in the UID computation treats an empty seed as absent and falls back to
summary plus UTC start, which differ here. -/
theorem uid_empty_seed_counterexample :
    Event.uid_text ⟨"A", ⟨2026, 1, 1, 0, some 0⟩, some "", none⟩ =
      Event.uid_text ⟨"B", ⟨2026, 1, 1, 0, some 0⟩, some "", none⟩ ∧
    eventUID ⟨"A", ⟨2026, 1, 1, 0, some 0⟩, some "", none⟩ ≠
      eventUID ⟨"B", ⟨2026, 1, 1, 0, some 0⟩, some "", none⟩ := by
  exact ⟨rfl, by decide⟩

/-- C1 amended: for events whose identity seeds are equal and non-empty,
serialization yields the identical UID — the UID is then a function of
the seed alone (its SHA-1 hex digest plus the fixed namespace suffix),
independent of summary, instant and description. All events built by the
normalizer carry non-empty seeds, so the restriction only excludes the
empty-string seed the or-truthiness diverts to the fallback. -/
theorem uid_stability_nonempty_seed :
    ∀ (e1 e2 : Event) (s : String), s ≠ "" →
      e1.uid_text = some s → e2.uid_text = some s → eventUID e1 = eventUID e2 := by
  intro e1 e2 s hs h1 h2
  unfold eventUID
  rw [h1, h2]
  simp [pyOrStr, hs]

/-- C1 amended, witness at a concrete input. -/
theorem uid_stability_nonempty_seed_witness :
    ("seed" : String) ≠ "" ∧
    eventUID ⟨"A", ⟨2026, 1, 1, 0, some 0⟩, some "seed", none⟩ =
      eventUID ⟨"B", ⟨2027, 2, 2, 3600, none⟩, some "seed", none⟩ :=
  ⟨by decide, uid_stability_nonempty_seed _ _ "seed" (by decide) rfl rfl⟩

/-- C3 counterexample: the identity seed built for a concrete earnings
record omits the raw timing string: it is the three-part join
earn::AAPL::2026-05-01, not the four-part join ending in ::amc the claim
describes. -/
theorem identity_seed_counterexample :
    (earnStep true [] false ⟨some "AAPL", none, none, some "2026-05-01", some "amc",
        none, none⟩).map (fun e => e.uid_text) = some (some "earn::AAPL::2026-05-01") ∧
    ("earn::AAPL::2026-05-01" : String) ≠
      "earn" ++ "::" ++ "AAPL" ++ "::" ++ "2026-05-01" ++ "::" ++ "amc" := by
  exact ⟨by decide, by decide⟩

/-- C3 amended: the identity seed is always the delimiter-join of exactly
three components — the domain tag, the name (economic) or uppercased
symbol (earnings), and the raw date string; the raw time or timing-label
string is not part of it, and neither is the resolved instant: seeds of
two earnings records agree whenever their symbol and date fields agree,
whatever their timing fields. -/
theorem identity_seed_three_parts :
    (∀ (u : Bool) (item : EconRaw) (ev : Event),
       econStep u item = .ok (some ev) →
       ev.uid_text = some ("econ::" ++ pyOrStr item.event "Economic Release" ++ "::" ++
         item.date.getD "")) ∧
    (∀ (ia : Bool) (uni : List String) (an : Bool) (row : EarnRaw) (ev : Event),
       earnStep ia uni an row = some ev →
       ev.uid_text = some ("earn::" ++ toUpperStr (pyOrStr row.symbol "") ++ "::" ++
         row.date.getD "")) ∧
    (∀ (ia : Bool) (uni : List String) (an : Bool) (r1 r2 : EarnRaw) (e1 e2 : Event),
       r1.symbol = r2.symbol → r1.date = r2.date →
       earnStep ia uni an r1 = some e1 → earnStep ia uni an r2 = some e2 →
       e1.uid_text = e2.uid_text) := by
  have hb : ∀ (ia : Bool) (uni : List String) (an : Bool) (row : EarnRaw) (ev : Event),
      earnStep ia uni an row = some ev →
      ev.uid_text = some ("earn::" ++ toUpperStr (pyOrStr row.symbol "") ++ "::" ++
        row.date.getD "") := by
    intro ia uni an row ev h
    simp only [earnStep] at h
    by_cases h1 : (!ia && !decide (toUpperStr (pyOrStr row.symbol "") ∈ uni)) = true
    · rw [if_pos h1] at h
      exact absurd h (by simp)
    · rw [if_neg h1] at h
      by_cases h2 : (!truthyS row.date) = true
      · rw [if_pos h2] at h
        exact absurd h (by simp)
      · rw [if_neg h2] at h
        cases hp : parseDT (row.date.getD "") with
        | none => simp [hp] at h
        | some dt0 =>
          simp only [hp, Option.some_inj] at h
          subst h
          rfl
  refine ⟨?_, hb, ?_⟩
  · intro u item ev h
    simp only [econStep] at h
    by_cases h1 : (!truthyS item.date) = true
    · rw [if_pos h1] at h
      exact absurd h (by simp)
    · rw [if_neg h1] at h
      cases hp : parseDT (item.date.getD "") with
      | none =>
        by_cases h2 : (containsSub "T" (item.date.getD "") &&
            decide ((item.date.getD "").length > 10)) = true
        · rw [if_pos h2] at h
          simp [hp] at h
        · rw [if_neg h2] at h
          simp [hp] at h
      | some dt0 =>
        by_cases h2 : (containsSub "T" (item.date.getD "") &&
            decide ((item.date.getD "").length > 10)) = true
        · rw [if_pos h2] at h
          simp only [hp, Except.ok.injEq, Option.some_inj] at h
          subst h
          rfl
        · rw [if_neg h2] at h
          simp only [hp, Except.ok.injEq, Option.some_inj] at h
          subst h
          rfl
  · intro ia uni an r1 r2 e1 e2 hs hd h1 h2
    rw [hb ia uni an r1 e1 h1, hb ia uni an r2 e2 h2, hs, hd]

/-- C3 amended, witness at a concrete input. -/
theorem identity_seed_three_parts_witness :
    Event.uid_text
      { summary := "CPI (Economic)", dt := ⟨2024, 3, 12, 30600, some (-240)⟩,
        uid_text := some "econ::CPI::2024-03-12",
        description := some "Economic release (FRED releases/dates)" } =
      some ("econ::" ++ pyOrStr (some "CPI") "Economic Release" ++ "::" ++
        (some "2024-03-12").getD "") :=
  identity_seed_three_parts.1 false ⟨some "CPI", some "2024-03-12", none, some "US"⟩ _ rfl

/-- C6 counterexample: a single economic record with an unparsable date
aborts the whole economic batch (the exception escapes the loop), losing
the parsable record after it, instead of being dropped individually. -/
theorem econ_batch_abort_counterexample :
    econBatch false [⟨some "CPI", some "notadate", none, some "US"⟩,
                     ⟨some "GDP", some "2026-03-02", none, some "US"⟩] =
      .error "dateutil ParserError" := by
  rfl

/-- C6 amended: per-record recovery holds for the earnings loop (missing
or unparsable dates drop the single record) and for missing economic
dates, but an unparsable economic date string raises and aborts the whole
economic batch, and a missing economic name does not drop the record —
the default name Economic Release is substituted instead. -/
theorem parse_failure_recovery_amended :
    (∀ (ia : Bool) (uni : List String) (an : Bool) (pre post : List EarnRaw) (row : EarnRaw),
       (row.date = none ∨ ∃ s, row.date = some s ∧ parseDT s = none) →
       earnBatch ia uni an (pre ++ row :: post) = earnBatch ia uni an (pre ++ post)) ∧
    (∀ (u : Bool) (pre post : List EconRaw) (item : EconRaw),
       item.date = none →
       econBatch u (pre ++ item :: post) = econBatch u (pre ++ post)) ∧
    (∀ (u : Bool) (pre : List EconRaw) (l : List Event) (post : List EconRaw)
       (item : EconRaw) (s : String),
       econBatch u pre = .ok l → item.date = some s → s ≠ "" → parseDT s = none →
       econBatch u (pre ++ item :: post) = .error "dateutil ParserError") ∧
    (∀ (u : Bool) (item : EconRaw) (s : String) (dt : DateTime),
       item.event = none → item.date = some s → s ≠ "" → parseDT s = some dt →
       ∃ ev, econStep u item = .ok (some ev) ∧ ev.summary = "Economic Release (Economic)") := by
  have hdrop : ∀ (ia : Bool) (uni : List String) (an : Bool) (row : EarnRaw),
      (row.date = none ∨ ∃ s, row.date = some s ∧ parseDT s = none) →
      earnStep ia uni an row = none := by
    intro ia uni an row hbad
    simp only [earnStep]
    by_cases h1 : (!ia && !decide (toUpperStr (pyOrStr row.symbol "") ∈ uni)) = true
    · rw [if_pos h1]
    · rw [if_neg h1]
      rcases hbad with hnone | ⟨s, hsome, hparse⟩
      · rw [hnone]
        rfl
      · rw [hsome]
        by_cases hse : s = ""
        · subst hse
          rfl
        · simp [truthyS, hse, hparse]
  have hskip : ∀ (u : Bool) (item : EconRaw), item.date = none →
      econStep u item = .ok none := by
    intro u item h
    simp only [econStep]
    rw [h]
    rfl
  have habort : ∀ (u : Bool) (item : EconRaw) (s : String),
      item.date = some s → s ≠ "" → parseDT s = none →
      econStep u item = .error "dateutil ParserError" := by
    intro u item s hd hs hp
    simp only [econStep]
    rw [hd]
    have h1 : (!truthyS (some s)) = false := by
      simp [truthyS, hs]
    rw [h1]
    simp only [Bool.false_eq_true, if_false, Option.getD_some, hp]
    by_cases h2 : (containsSub "T" s && decide (s.length > 10)) = true
    · rw [if_pos h2]
    · rw [if_neg h2]
  have happ : ∀ (u : Bool) (xs ys : List EconRaw),
      econBatch u (xs ++ ys) =
        match econBatch u xs with
        | .error e => .error e
        | .ok l =>
          match econBatch u ys with
          | .error e => .error e
          | .ok l2 => .ok (l ++ l2) := by
    intro u xs ys
    induction xs with
    | nil =>
      simp only [List.nil_append, econBatch]
      cases h : econBatch u ys with
      | error e => rfl
      | ok l => rfl
    | cons x t ih =>
      simp only [List.cons_append, econBatch, List.append_eq]
      cases hstep : econStep u x with
      | error e => rfl
      | ok o =>
        cases o with
        | none => exact ih
        | some ev =>
          rw [ih]
          cases h1 : econBatch u t with
          | error e => rfl
          | ok l =>
            cases h2 : econBatch u ys with
            | error e => rfl
            | ok l2 => rfl
  refine ⟨?_, ?_, ?_, ?_⟩
  · intro ia uni an pre post row hbad
    unfold earnBatch
    rw [List.filterMap_append, List.filterMap_append,
        List.filterMap_cons_none (hdrop ia uni an row hbad)]
  · intro u pre post item h
    have heq : econBatch u (item :: post) = econBatch u post := by
      simp only [econBatch, hskip u item h]
    rw [happ, happ, heq]
  · intro u pre l post item s hpre hd hs hp
    have heq : econBatch u (item :: post) = .error "dateutil ParserError" := by
      simp only [econBatch, habort u item s hd hs hp]
    rw [happ, hpre, heq]
  · intro u item s dt hev hd hs hp
    simp only [econStep]
    rw [hev, hd]
    have h1 : (!truthyS (some s)) = false := by
      simp [truthyS, hs]
    rw [h1]
    simp only [Bool.false_eq_true, if_false, Option.getD_some, hp, pyOrStr]
    by_cases h2 : (containsSub "T" s && decide (s.length > 10)) = true
    · rw [if_pos h2]
      exact ⟨_, rfl, rfl⟩
    · rw [if_neg h2]
      exact ⟨_, rfl, rfl⟩

/-- C6 amended, witness at concrete inputs. -/
theorem parse_failure_recovery_amended_witness :
    (earnBatch true [] false
        ([⟨some "AAPL", none, none, some "2026-05-01", none, none, none⟩] ++
          ⟨some "MSFT", none, none, some "nodate", none, none, none⟩ :: []) =
       earnBatch true [] false
        ([⟨some "AAPL", none, none, some "2026-05-01", none, none, none⟩] ++ [])) ∧
    econBatch false
        ([] ++ (⟨some "CPI", some "nodate2", none, some "US"⟩ : EconRaw) ::
          [⟨some "GDP", some "2026-03-02", none, some "US"⟩]) =
      .error "dateutil ParserError" :=
  ⟨parse_failure_recovery_amended.1 true [] false _ []
      ⟨some "MSFT", none, none, some "nodate", none, none, none⟩
      (Or.inr ⟨"nodate", rfl, by decide⟩),
   parse_failure_recovery_amended.2.2.1 false [] [] _
      ⟨some "CPI", some "nodate2", none, some "US"⟩ "nodate2" rfl rfl (by decide) (by decide)⟩

/-- C7: the aggregated sequence is the stable sort of the economic events
followed by the earnings events, by UTC instant: consecutive events have
nondecreasing keys, and for every key value the subsequence of events
with that key equals the corresponding subsequence of the concatenation,
so equal instants keep economic-before-earnings order. -/
theorem aggregated_ordering_stable :
    ∀ (econRaws : List EconRaw) (used_te : Bool) (sp500 : List String)
      (earnRaws : List EarnRaw) (envAll autoExp reqAll : Bool)
      (econEvs l : List Event),
      econBatch used_te econRaws = .ok econEvs →
      collect_combined_events econRaws used_te sp500 earnRaws envAll autoExp reqAll = .ok l →
      List.Chain' (fun a b => evKey a ≤ evKey b) l ∧
      ∀ k : Int,
        l.filter (fun e => evKey e == k) =
          (econEvs ++ earnBatch (effectiveIncludeAll envAll autoExp reqAll sp500)
              (universeOf sp500)
              (auto_expanded_now envAll autoExp sp500 && !envAll) earnRaws).filter
            (fun e => evKey e == k) := by
  intro econRaws used_te sp500 earnRaws envAll autoExp reqAll econEvs l h1 h2
  unfold collect_combined_events at h2
  rw [h1] at h2
  simp only [Except.ok.injEq] at h2
  subst h2
  exact ⟨(sortEvents_pairwise _).chain', fun k => sortEvents_stable k _⟩

/-- C7, witness at a concrete input. -/
theorem aggregated_ordering_stable_witness :
    List.Chain' (fun a b => evKey a ≤ evKey b)
      (sortEvents (([] : List Event) ++
        earnBatch (effectiveIncludeAll false false true []) (universeOf [])
          (auto_expanded_now false false [] && !false)
          [⟨some "MSFT", none, none, some "2026-05-02", some "bmo", none, none⟩,
           ⟨some "AAPL", none, none, some "2026-05-01", some "amc", none, none⟩])) ∧
    ∀ k : Int,
      (sortEvents (([] : List Event) ++
        earnBatch (effectiveIncludeAll false false true []) (universeOf [])
          (auto_expanded_now false false [] && !false)
          [⟨some "MSFT", none, none, some "2026-05-02", some "bmo", none, none⟩,
           ⟨some "AAPL", none, none, some "2026-05-01", some "amc", none, none⟩])).filter
          (fun e => evKey e == k) =
        (([] : List Event) ++
          earnBatch (effectiveIncludeAll false false true []) (universeOf [])
            (auto_expanded_now false false [] && !false)
            [⟨some "MSFT", none, none, some "2026-05-02", some "bmo", none, none⟩,
             ⟨some "AAPL", none, none, some "2026-05-01", some "amc", none, none⟩]).filter
          (fun e => evKey e == k) :=
  aggregated_ordering_stable [] false []
    [⟨some "MSFT", none, none, some "2026-05-02", some "bmo", none, none⟩,
     ⟨some "AAPL", none, none, some "2026-05-01", some "amc", none, none⟩]
    false false true [] _ rfl rfl

/-- C8: with the include-all directive off (configuration and request)
and auto-widening ineffective (disabled, or a non-empty live list), an
earnings record passes the universe filter exactly when its uppercased
symbol is in the union of the live constituent list and the Dow 30 seed
(the seed alone when the live list is empty); a record failing the filter
is dropped by the normalizer. -/
theorem universe_filter_union :
    ∀ (envAll autoExp reqAll : Bool) (sp500 : List String) (row : EarnRaw),
      envAll = false → reqAll = false → (autoExp = false ∨ sp500 ≠ []) →
      ((passesFilter (effectiveIncludeAll envAll autoExp reqAll sp500) (universeOf sp500)
          (toUpperStr (pyOrStr row.symbol "")) = true ↔
        (toUpperStr (pyOrStr row.symbol "") ∈ sp500 ∨
          toUpperStr (pyOrStr row.symbol "") ∈ DOW30)) ∧
       (passesFilter (effectiveIncludeAll envAll autoExp reqAll sp500) (universeOf sp500)
          (toUpperStr (pyOrStr row.symbol "")) = false →
        ∀ an : Bool,
          earnStep (effectiveIncludeAll envAll autoExp reqAll sp500) (universeOf sp500)
            an row = none)) := by
  intro envAll autoExp reqAll sp500 row h1 h2 h3
  subst h1
  subst h2
  have heff : effectiveIncludeAll false autoExp false sp500 = false := by
    rcases h3 with h | h
    · subst h
      simp [effectiveIncludeAll, auto_expanded_now]
    · cases sp500 with
      | nil => exact absurd rfl h
      | cons a t => simp [effectiveIncludeAll, auto_expanded_now, List.isEmpty]
  constructor
  · rw [heff]
    unfold passesFilter universeOf
    by_cases hsp : sp500 = []
    · subst hsp
      simp [List.isEmpty]
    · cases sp500 with
      | nil => exact absurd rfl hsp
      | cons a t =>
        simp [List.isEmpty, List.mem_append]
        tauto
  · intro hpf an
    rw [heff] at hpf ⊢
    unfold passesFilter at hpf
    simp only [Bool.false_or] at hpf
    unfold earnStep
    simp [hpf]

/-- C8, witness at a concrete input. -/
theorem universe_filter_union_witness :
    ((passesFilter (effectiveIncludeAll false false false ["GOOG"]) (universeOf ["GOOG"])
        (toUpperStr (pyOrStr (some "msft") "")) = true ↔
      (toUpperStr (pyOrStr (some "msft") "") ∈ ["GOOG"] ∨
        toUpperStr (pyOrStr (some "msft") "") ∈ DOW30)) ∧
     (passesFilter (effectiveIncludeAll false false false ["GOOG"]) (universeOf ["GOOG"])
        (toUpperStr (pyOrStr (some "msft") "")) = false →
      ∀ an : Bool,
        earnStep (effectiveIncludeAll false false false ["GOOG"]) (universeOf ["GOOG"]) an
          ⟨some "msft", none, none, some "2026-05-01", none, none, none⟩ = none)) :=
  universe_filter_union false false false ["GOOG"]
    ⟨some "msft", none, none, some "2026-05-01", none, none, none⟩ rfl rfl
    (Or.inr (by decide))

end Cal
